import Mathlib

/-!
Verification development for the Dynamic Earth Net change-detection data
pipeline (`utils.py`).  The Python code is shallowly embedded: pure array
manipulations become Lean functions over flat buffers or pixel functions,
Python exceptions become `Except PyError`, machine integers become `Nat`
(pixel counts never overflow in the modelled ranges) and float divisions
of the class-weight table become exact `ℚ` divisions (both sides of the
verified equalities apply the identical division, so exactness is not
load-bearing).
-/

/-- The Python exceptions that the modelled code paths can raise. -/
inductive PyError where
  | indexError
  | zeroDivisionError
  | unboundLocalError
  | valueError
  deriving Repr, DecidableEq

/-! ## `load_config`

`load_config` opens the configuration file and runs `yaml.safe_load` inside
a `try`/`except yaml.YAMLError` block that only prints the exception, then
executes `return config`.  The YAML parser is an external collaborator and
is modelled as the parameter `parsed : Except String Cfg` (`Except.error`
carries the printed representation of the `YAMLError`).  The result models
the Python call: the list of printed lines together with either a normal
return value or the exception escaping the function.  When `yaml.safe_load`
raises, the local variable `config` was never assigned, so the trailing
`return config` raises `UnboundLocalError` inside `load_config` itself. -/
def load_config (Cfg : Type) (parsed : Except String Cfg) :
    List String × Except PyError Cfg :=
  match parsed with
  | .ok config => ([], .ok config)
  | .error exc => ([exc], .error .unboundLocalError)

/-! ## Palette and RGB class encoding -/

/-- The fixed 8-entry palette `color_label_dict` mapping a class index to its
RGB triple; indices outside `0..7` are absent from the dict (`none`). -/
def color_label_dict : ℕ → Option (ℕ × ℕ × ℕ)
  | 0 => some (0, 0, 0)
  | 1 => some (128, 0, 0)
  | 2 => some (0, 128, 0)
  | 3 => some (128, 128, 0)
  | 4 => some (0, 0, 128)
  | 5 => some (128, 0, 128)
  | 6 => some (0, 128, 128)
  | 7 => some (128, 128, 128)
  | _ => none

/-- One pixel of `rgb_to_onehot`: layer `i` of the one-hot array holds `1`
exactly when the pixel's RGB triple equals palette entry `i`
(`arr[:, :, i] = np.all(rgb_arr.reshape((-1, 3)) == self.color_label_dict[i], axis=1)`). -/
def rgb_to_onehot_pixel (rgb : ℕ × ℕ × ℕ) : List ℤ :=
  (List.range 8).map fun i => if color_label_dict i = some rgb then 1 else 0

/-- `np.argmax` over a 1-D array: index of the first occurrence of the
maximum.  NumPy documents (and the code relies on) `argmax` of an all-equal
array returning index `0`. -/
def argmaxAux : List ℤ → ℕ → ℤ → ℕ → ℕ
  | [], _, _, best => best
  | a :: rest, idx, bestVal, best =>
      if bestVal < a then argmaxAux rest (idx + 1) a idx
      else argmaxAux rest (idx + 1) bestVal best

/-- `np.argmax` on a list (empty list never occurs in the modelled code;
NumPy would raise there, we return 0). -/
def np_argmax : List ℤ → ℕ
  | [] => 0
  | a :: rest => argmaxAux rest 1 a 0

/-- One pixel of the RGB-to-class decoding used on each label mask:
`np.argmax(self.rgb_to_onehot(cm_rgb_np), axis=2)`. -/
def decode_pixel (rgb : ℕ × ℕ × ℕ) : ℕ :=
  np_argmax (rgb_to_onehot_pixel rgb)

/-- One pixel of `mask2rgb`: the loop writes palette entry `key` to every
pixel whose class equals `key`; a pixel whose class is in no palette entry
is left as the uninitialised contents of `np.empty`, modelled as `none`. -/
def mask2rgb_pixel (v : ℕ) : Option (ℕ × ℕ × ℕ) :=
  color_label_dict v

/-! ## Patch tiler `cut_image_strided`

A C-contiguous `(B, H, W)` array has element strides `(H*W, W, 1)`; the
buffer is modelled as the flat function `flat : ℕ → α` and the logical image
accessor is `image_elt`.  `as_strided` with
`shape=(H/Ty, W/Tx, B, Ty, Tx)` and
`strides=(strides[1]*Ty, strides[2]*Tx, strides[0], strides[1], strides[2])`
makes element `[i, j, b, y, x]` read the buffer at offset
`i*(W*Ty) + j*Tx + b*(H*W) + y*W + x`.  (The content theorems proved below
are stride-independent, so the C-contiguous model loses no generality for
the transposed views the dataset feeds in.) -/

/-- Element `(b, r, c)` of a C-contiguous `(B, H, W)` array with buffer
`flat`. -/
def image_elt {α : Type} (flat : ℕ → α) (H W b r c : ℕ) : α :=
  flat (b * (H * W) + r * W + c)

/-- `cut_image_strided`: the strided view materialised as nested lists of
shape `(H/Ty, W/Tx, B, Ty, Tx)`, each element read from the buffer at the
`as_strided` offset. -/
def cut_image_strided {α : Type} (flat : ℕ → α) (B H W Ty Tx : ℕ) :
    List (List (List (List (List α)))) :=
  (List.range (H / Ty)).map fun i =>
    (List.range (W / Tx)).map fun j =>
      (List.range B).map fun b =>
        (List.range Ty).map fun y =>
          (List.range Tx).map fun x =>
            flat (i * (W * Ty) + j * Tx + b * (H * W) + y * W + x)

/-- The diagnostic `cut_image_strided` prints:
`if old_size_x % new_size_x != 0 or old_size_y % new_size_y != 0`. -/
def cut_image_strided_diag (H W Ty Tx : ℕ) : List String :=
  if W % Tx ≠ 0 ∨ H % Ty ≠ 0 then
    ["The patch size is not a full multiple of the complete patch size"]
  else []

/-- Bounds-checked access to element `[i, j, b, y, x]` of a 5-D nested
list. -/
def get5 {α : Type} (t : List (List (List (List (List α)))))
    (i j b y x : ℕ) : Option α := do
  let ti ← t[i]?
  let tj ← ti[j]?
  let tb ← tj[b]?
  let ty ← tb[y]?
  ty[x]?

/-- Reassembly of the tiled output (the spec's testable property): the pixel
`(b, r, c)` of the reassembled image is read from tile
`(r / Ty, c / Tx)` at in-tile position `(r % Ty, c % Tx)`. -/
def reassemble {α : Type} (flat : ℕ → α) (B H W Ty Tx b r c : ℕ) : Option α :=
  get5 (cut_image_strided flat B H W Ty Tx) (r / Ty) (c / Tx) b (r % Ty) (c % Tx)

/-! ## Label chunking `cm_indices_np.reshape(16, 256, 256)`

The decoded class-index mask `cm_indices_np` has shape `(H, W)`.
`reshape(16, 256, 256)` is a NumPy reshape: it succeeds exactly when the
array holds `16*256*256` elements and then redistributes the row-major
(C-order) flattening, so chunk `k` at position `(y, x)` is flat element
`k*256*256 + y*256 + x`. -/

/-- Row-major (C-order) flattening of an `(H, W)` mask given as a pixel
function: flat element `idx` is pixel `(idx / W, idx % W)`. -/
def mask_flat (mask : ℕ → ℕ → ℕ) (W : ℕ) : ℕ → ℕ :=
  fun idx => mask (idx / W) (idx % W)

/-- Pixel `(y, x)` of label chunk `k` produced by
`cm_indices_np.reshape(16, 256, 256)` (content view, for a mask given as a
pixel function of width `W`). -/
def cm_reshape_pixel (mask : ℕ → ℕ → ℕ) (W k y x : ℕ) : ℕ :=
  mask_flat mask W (k * (256 * 256) + y * 256 + x)

/-- `cm_indices_np.reshape(16, 256, 256)` on a mask given as the flat list
of its pixels in row-major order: NumPy raises `ValueError` unless the
total size is exactly `16*256*256`, otherwise chunk `k` is the 256×256
block of flat elements starting at `k*256*256`.  The subsequent loop
`for num_patch in range(0, cm_reshape.shape[0])` appends exactly the 16
chunks as label patches. -/
def cm_reshape (mask : List ℕ) : Except PyError (List (List (List ℕ))) :=
  if mask.length = 16 * 256 * 256 then
    .ok ((List.range 16).map fun k =>
      (List.range 256).map fun y =>
        (List.range 256).map fun x =>
          mask.getD (k * (256 * 256) + y * 256 + x) 0)
  else .error .valueError

/-- The i-th row-major spatial 256×256 tile of an `(H, W)` mask, as the
claimed/spec-side description of a label patch: with `W / 256` tiles per
row, patch `p` is the tile at grid position `(p / (W / 256), p % (W / 256))`
and its pixel `(y, x)` is mask pixel
`((p / (W / 256)) * 256 + y, (p % (W / 256)) * 256 + x)`.  This is the
tiling the image patches actually undergo (`cut_image_strided` followed by
flattening the leading two axes row-major); it is stated here separately so
the label chunking can be compared against it. -/
def spec_spatial_tile_pixel (mask : ℕ → ℕ → ℕ) (W p y x : ℕ) : ℕ :=
  mask ((p / (W / 256)) * 256 + y) ((p % (W / 256)) * 256 + x)

/-! ## Per-class pixel counters and inverse-frequency weights -/

/-- The eight running per-class pixel counters `n_pix0 .. n_pix7` threaded
through training-mode construction. -/
structure Counters where
  n_pix0 : ℕ
  n_pix1 : ℕ
  n_pix2 : ℕ
  n_pix3 : ℕ
  n_pix4 : ℕ
  n_pix5 : ℕ
  n_pix6 : ℕ
  n_pix7 : ℕ
  deriving Repr, DecidableEq

/-- Counter for class `k` (classes outside `0..7` have no counter). -/
def Counters.get (c : Counters) : ℕ → ℕ
  | 0 => c.n_pix0
  | 1 => c.n_pix1
  | 2 => c.n_pix2
  | 3 => c.n_pix3
  | 4 => c.n_pix4
  | 5 => c.n_pix5
  | 6 => c.n_pix6
  | 7 => c.n_pix7
  | _ => 0

/-- `compute_for_INS_weights`: adds, for each class `k`, the number of
pixels of `cm_indices_np` equal to `k` (`np.count_nonzero(cm_indices_np == k)`)
to the running counter `n_pixk`.  The mask is its list of pixel class
values (in any order: only counts matter). -/
def compute_for_INS_weights (cm_indices_np : List ℕ) (c : Counters) : Counters where
  n_pix0 := c.n_pix0 + cm_indices_np.count 0
  n_pix1 := c.n_pix1 + cm_indices_np.count 1
  n_pix2 := c.n_pix2 + cm_indices_np.count 2
  n_pix3 := c.n_pix3 + cm_indices_np.count 3
  n_pix4 := c.n_pix4 + cm_indices_np.count 4
  n_pix5 := c.n_pix5 + cm_indices_np.count 5
  n_pix6 := c.n_pix6 + cm_indices_np.count 6
  n_pix7 := c.n_pix7 + cm_indices_np.count 7

/-- All counters start at `0` (`n_pix0 = 0`, …, `n_pix7 = 0`). -/
def initCounters : Counters :=
  ⟨0, 0, 0, 0, 0, 0, 0, 0⟩

/-- The training loop calls `compute_for_INS_weights` once per decoded
label mask, threading the eight counters through. -/
def accumulate (corpus : List (List ℕ)) : Counters :=
  corpus.foldl (fun c cm => compute_for_INS_weights cm c) initCounters

/-- Total pixel count of class `k` over the whole corpus. -/
def totalCount (corpus : List (List ℕ)) (k : ℕ) : ℕ :=
  (corpus.map fun cm => cm.count k).sum

/-- Python division `1 / n_pixk`: raises `ZeroDivisionError` when the
divisor is zero, otherwise produces the quotient (modelled exactly in `ℚ`). -/
def pyDiv (a b : ℚ) : Except PyError ℚ :=
  if b = 0 then .error .zeroDivisionError else .ok (a / b)

/-- The counters in the order they are divided in
`self.weights = [1 / n_pix0, ..., 1 / n_pix7]`. -/
def countsList (c : Counters) : List ℕ :=
  [c.n_pix0, c.n_pix1, c.n_pix2, c.n_pix3, c.n_pix4, c.n_pix5, c.n_pix6, c.n_pix7]

/-- Left-to-right evaluation of the divisions `1 / n` for a list of
divisors; the first `ZeroDivisionError` aborts the whole list. -/
def weightsOf : List ℕ → Except PyError (List ℚ)
  | [] => .ok []
  | n :: rest => do
      let w ← pyDiv 1 (n : ℚ)
      let ws ← weightsOf rest
      .ok (w :: ws)

/-- The final statement of training-mode construction:
`self.weights = [1 / n_pix0, ..., 1 / n_pix7]`.  The list display evaluates
its eight divisions left to right; a zero counter raises
`ZeroDivisionError`, aborting construction. -/
def mkWeights (c : Counters) : Except PyError (List ℚ) :=
  weightsOf (countsList c)

/-- End of training-mode construction: accumulate the per-class counts over
every processed label mask, then build the inverse-frequency weight table. -/
def train_weights (corpus : List (List ℕ)) : Except PyError (List ℚ) :=
  mkWeights (accumulate corpus)

/-! ## Inference-mode before/after pairing

For one location, the `'-01.tif'` raster filenames are natural-sorted into
`test_file_name_filtered_and_sort`; the loop
`for idx, test_file_name in enumerate(...): if idx != 23:` pairs the file
at position `idx` with the file at position `idx + 1`, which raises
`IndexError` when `idx + 1` is out of range. -/

/-- The enumerate loop body over the remaining indices: for each `idx ≠ 23`
pair `names[idx]` with `names[idx + 1]` (an out-of-range access raises
`IndexError`, aborting the whole construction); `idx = 23` is skipped. -/
def buildPairsAux (names : List String) : List ℕ → Except PyError (List (String × String))
  | [] => .ok []
  | idx :: rest =>
      if idx ≠ 23 then
        match names[idx]?, names[idx + 1]? with
        | some a, some b => do
            let tail ← buildPairsAux names rest
            .ok ((a, b) :: tail)
        | _, _ => .error .indexError
      else buildPairsAux names rest

/-- The (before, after) pairs processed for one location's natural-sorted
file list, or the `IndexError` that aborts construction. -/
def buildPairs (names : List String) : Except PyError (List (String × String)) :=
  buildPairsAux names (List.range names.length)

/-! ## Lemmas about the patch tiler -/

theorem cut_image_strided_length {α : Type} (flat : ℕ → α) (B H W Ty Tx : ℕ) :
    (cut_image_strided flat B H W Ty Tx).length = H / Ty := by
  simp [cut_image_strided]

theorem cut_image_strided_row {α : Type} (flat : ℕ → α) (B H W Ty Tx i : ℕ)
    (hi : i < H / Ty) :
    ∃ row, (cut_image_strided flat B H W Ty Tx)[i]? = some row
      ∧ row.length = W / Tx := by
  refine ⟨(List.range (W / Tx)).map fun j =>
      (List.range B).map fun b =>
        (List.range Ty).map fun y =>
          (List.range Tx).map fun x =>
            flat (i * (W * Ty) + j * Tx + b * (H * W) + y * W + x), ?_, by simp⟩
  simp [cut_image_strided, List.getElem?_map, List.getElem?_range, hi]

theorem cut_get5_eq {α : Type} (flat : ℕ → α) (B H W Ty Tx i j b y x : ℕ)
    (hi : i < H / Ty) (hj : j < W / Tx) (hb : b < B) (hy : y < Ty) (hx : x < Tx) :
    get5 (cut_image_strided flat B H W Ty Tx) i j b y x
      = some (image_elt flat H W b (i * Ty + y) (j * Tx + x)) := by
  have harith : i * (W * Ty) + j * Tx + b * (H * W) + y * W + x
      = b * (H * W) + (i * Ty + y) * W + (j * Tx + x) := by ring
  simp [get5, cut_image_strided, image_elt, List.getElem?_map, List.getElem?_range,
    hi, hj, hb, hy, hx, harith]

theorem tile_row_lt (H Ty i y : ℕ) (hi : i < H / Ty) (hy : y < Ty) :
    i * Ty + y < H := by
  calc i * Ty + y < i * Ty + Ty := by omega
    _ = (i + 1) * Ty := by ring
    _ ≤ (H / Ty) * Ty := Nat.mul_le_mul_right Ty hi
    _ ≤ H := Nat.div_mul_le_self H Ty

theorem cut_diag_iff (H W Ty Tx : ℕ) :
    cut_image_strided_diag H W Ty Tx ≠ [] ↔ ¬(H % Ty = 0 ∧ W % Tx = 0) := by
  unfold cut_image_strided_diag
  by_cases h : W % Tx ≠ 0 ∨ H % Ty ≠ 0 <;> simp [h] <;> tauto

/-! ## Claims C7, C8, C1 -/

/-- C7: for every 3-D input array of shape `(B, H, W)` and tile shape
`(Ty, Tx)`, `cut_image_strided` returns an array of shape
`(H/Ty, W/Tx, B, Ty, Tx)` whose element `[i, j, b, y, x]` is pixel
`(b, i*Ty + y, j*Tx + x)` of the source, i.e. tile `[i,j]` is the `(i,j)`-th
non-overlapping `Ty×Tx` tile; exactly `(H/Ty)*(W/Tx)` tiles are produced and
every pixel they read lies inside the source (the trailing partial
row/column is dropped); the diagnostic is printed exactly when `H` or `W` is
not an exact multiple, and the function still returns (it is total). -/
theorem C7_cut_image_strided_spec {α : Type} (flat : ℕ → α) (B H W Ty Tx : ℕ) :
    (cut_image_strided flat B H W Ty Tx).length = H / Ty
    ∧ (∀ i, i < H / Ty →
        ∃ row, (cut_image_strided flat B H W Ty Tx)[i]? = some row
          ∧ row.length = W / Tx)
    ∧ (∀ i j b y x, i < H / Ty → j < W / Tx → b < B → y < Ty → x < Tx →
        get5 (cut_image_strided flat B H W Ty Tx) i j b y x
          = some (image_elt flat H W b (i * Ty + y) (j * Tx + x))
        ∧ i * Ty + y < H ∧ j * Tx + x < W)
    ∧ (cut_image_strided_diag H W Ty Tx ≠ [] ↔ ¬(H % Ty = 0 ∧ W % Tx = 0)) := by
  refine ⟨cut_image_strided_length flat B H W Ty Tx, ?_, ?_, cut_diag_iff H W Ty Tx⟩
  · intro i hi
    exact cut_image_strided_row flat B H W Ty Tx i hi
  · intro i j b y x hi hj hb hy hx
    exact ⟨cut_get5_eq flat B H W Ty Tx i j b y x hi hj hb hy hx,
      tile_row_lt H Ty i y hi hy, tile_row_lt W Tx j x hj hx⟩

/-- Witness for C7 at a concrete input: a `(1, 3, 2)` image cut into `2×1`
tiles has its tile `[0,1]` element `[0,1,0]` equal to buffer element `3`
(pixel `(0, 1, 1)`), and the diagnostic fires since `3 % 2 ≠ 0`. -/
theorem C7_cut_image_strided_spec_witness :
    get5 (cut_image_strided (fun n => n) 1 3 2 2 1) 0 1 0 1 0 = some 3
    ∧ cut_image_strided_diag 3 2 2 1 ≠ [] := by
  obtain ⟨-, -, h3, h4⟩ := C7_cut_image_strided_spec (fun n => n) 1 3 2 2 1
  refine ⟨?_, h4.mpr (by decide)⟩
  have h := (h3 0 1 0 1 0 (by decide) (by decide) (by decide) (by decide) (by decide)).1
  simpa [image_elt] using h

/-- C8: with `H` an exact multiple of `Ty` and `W` of `Tx`, placing each
tile of `cut_image_strided` back at its row-major grid position reproduces
the original array exactly: every pixel `(b, r, c)` of the reassembly equals
pixel `(b, r, c)` of the source. -/
theorem C8_reassemble_roundtrip {α : Type} (flat : ℕ → α) (B H W Ty Tx : ℕ)
    (hTy : 0 < Ty) (hTx : 0 < Tx) (hH : Ty ∣ H) (hW : Tx ∣ W)
    (b r c : ℕ) (hb : b < B) (hr : r < H) (hc : c < W) :
    reassemble flat B H W Ty Tx b r c = some (image_elt flat H W b r c) := by
  have hi : r / Ty < H / Ty := Nat.div_lt_div_of_lt_of_dvd hH hr
  have hj : c / Tx < W / Tx := Nat.div_lt_div_of_lt_of_dvd hW hc
  have hy : r % Ty < Ty := Nat.mod_lt _ hTy
  have hx : c % Tx < Tx := Nat.mod_lt _ hTx
  have e1 : r / Ty * Ty + r % Ty = r := by
    rw [Nat.mul_comm]; exact Nat.div_add_mod r Ty
  have e2 : c / Tx * Tx + c % Tx = c := by
    rw [Nat.mul_comm]; exact Nat.div_add_mod c Tx
  unfold reassemble
  rw [cut_get5_eq flat B H W Ty Tx _ _ b _ _ hi hj hb hy hx, e1, e2]

/-- Witness for C8 at a concrete input: a `(1, 2, 2)` image cut into `2×2`
tiles (one tile) reassembles pixel `(0, 1, 1)` to buffer element `3`. -/
theorem C8_reassemble_roundtrip_witness :
    reassemble (fun n => n) 1 2 2 2 2 0 1 1 = some 3 := by
  have h := C8_reassemble_roundtrip (fun n => n) 1 2 2 2 2
    (by decide) (by decide) (by decide) (by decide) 0 1 1
    (by decide) (by decide) (by decide)
  simpa [image_elt] using h

/-- The concrete failing input for C1: a 1024×1024 class-index mask whose
pixel at row `r`, column `c` has class `c / 256` (so its class is exactly
its column-tile index; all classes are in `0..3 ⊆ 0..7`). -/
def c1_mask : ℕ → ℕ → ℕ := fun _ c => c / 256

/-- C1 evaluated at the failing input: the training loop stores as label
patch 1 the chunk `cm_indices_np.reshape(16, 256, 256)[1]`, whose pixel
`(0, 0)` is flat element `65536 = ` pixel `(64, 0)` with class `0`; the
claim says label patch 1 is the spatial 256×256 tile at grid position
`(0, 1)`, whose pixel `(0, 0)` is mask pixel `(0, 256)` with class `1` —
and indeed the tiler that produces the image patches
(`cut_image_strided` on the same mask, flattened row-major) yields `1`
there.  So the stored label patches are not the spatial tiles the image
patches are, refuting the claimed alignment. -/
theorem C1_label_patch_misaligned :
    cm_reshape_pixel c1_mask 1024 1 0 0 = 0
    ∧ spec_spatial_tile_pixel c1_mask 1024 1 0 0 = 1
    ∧ get5 (cut_image_strided (mask_flat c1_mask 1024) 1 1024 1024 256 256)
        0 1 0 0 0 = some 1 := by
  refine ⟨by decide, by decide, ?_⟩
  have h := cut_get5_eq (mask_flat c1_mask 1024) 1 1024 1024 256 256 0 1 0 0 0
    (by decide) (by decide) (by decide) (by decide) (by decide)
  rw [h]
  decide

/-! ## Claim C10 -/

/-- C10: the label chunking `cm_indices_np.reshape(16, 256, 256)` succeeds
exactly for masks of `16*256*256 = 1048576` pixels, in which case it yields
exactly 16 label patches (appended one per `num_patch` in
`range(cm_reshape.shape[0])`, independently of how many image patches the
tiler produces); for any other total size it fails with a reshape
(`ValueError`) error. -/
theorem C10_label_reshape (mask : List ℕ) :
    (mask.length = 16 * 256 * 256 →
      ∃ patches, cm_reshape mask = .ok patches ∧ patches.length = 16)
    ∧ (mask.length ≠ 16 * 256 * 256 → cm_reshape mask = .error .valueError) := by
  constructor
  · intro h
    refine ⟨(List.range 16).map fun k =>
      (List.range 256).map fun y =>
        (List.range 256).map fun x =>
          mask.getD (k * (256 * 256) + y * 256 + x) 0, ?_, by simp⟩
    simp [cm_reshape, h]
  · intro h
    simp [cm_reshape, h]

/-- Witness for C10: a 1048576-pixel all-zero mask reshapes successfully
into exactly 16 label patches. -/
theorem C10_label_reshape_witness :
    ∃ patches, cm_reshape (List.replicate (16 * 256 * 256) 0) = .ok patches
      ∧ patches.length = 16 :=
  (C10_label_reshape (List.replicate (16 * 256 * 256) 0)).1
    (by rw [List.length_replicate])

/-! ## Claim C2: inference-mode before/after pairing -/

theorem buildPairsAux_ok (names : List String) (idxs : List ℕ)
    (h : ∀ idx ∈ idxs, idx ≠ 23 → idx + 1 < names.length) :
    buildPairsAux names idxs
      = .ok ((idxs.filter fun i => i ≠ 23).map
          fun i => ((names[i]?).getD "", (names[i + 1]?).getD "")) := by
  induction idxs with
  | nil => rfl
  | cons idx rest ih =>
      by_cases h23 : idx = 23
      · subst h23
        rw [buildPairsAux, if_neg (by simp)]
        rw [ih fun i hi hne => h i (List.mem_cons_of_mem _ hi) hne]
        simp
      · have hlt : idx + 1 < names.length := h idx (List.mem_cons_self _ _) h23
        have hlt' : idx < names.length := Nat.lt_of_succ_lt hlt
        rw [buildPairsAux, if_pos h23]
        rw [List.getElem?_eq_getElem hlt', List.getElem?_eq_getElem hlt]
        rw [ih fun i hi hne => h i (List.mem_cons_of_mem _ hi) hne]
        simp [h23, List.getElem?_eq_getElem, hlt, hlt']
        rfl

theorem buildPairsAux_err (names : List String) (idxs : List ℕ)
    (h : ∃ idx ∈ idxs, idx ≠ 23 ∧ names[idx + 1]? = none) :
    buildPairsAux names idxs = .error .indexError := by
  induction idxs with
  | nil => simp at h
  | cons a rest ih =>
      obtain ⟨idx, hmem, hne, hnone⟩ := h
      rcases List.mem_cons.mp hmem with rfl | hmem'
      · rw [buildPairsAux, if_pos hne, hnone]
        rcases names[idx]? with _ | v <;> rfl
      · have htail := ih ⟨idx, hmem', hne, hnone⟩
        by_cases h23 : a = 23
        · subst h23
          rw [buildPairsAux, if_neg (by simp)]
          exact htail
        · rw [buildPairsAux, if_pos h23, htail]
          rcases names[a]? with _ | v <;> rcases names[a + 1]? with _ | w <;> rfl

/-- Counterexample to C2: for a location with 2 natural-sorted files the
claim demands exactly the pair `("a", "b")` (every index except the last
`i = 1`), but the loop only skips the hardcoded index 23, so at `i = 1` it
accesses position 2 and construction aborts with `IndexError`. -/
theorem C2_counterexample :
    buildPairs ["a", "b"] = .error .indexError
    ∧ buildPairs ["a", "b"] ≠ .ok [("a", "b")] := by
  have he : buildPairs ["a", "b"] = .error .indexError := rfl
  refine ⟨he, ?_⟩
  rw [he]
  simp

/-- C2 as amended: the loop skips exactly the hardcoded index 23 (not "the
last index"); when the natural-sorted list has exactly 24 entries this
coincides with skipping the last index, and a (before, after) pair
`(names[i], names[i+1])` is processed for every `0 ≤ i ≤ 22`; for a
nonempty list of any other length the iteration at `i = n-1` accesses
position `n` and raises `IndexError`, aborting construction. -/
theorem C2_pairs_skip_23 (names : List String) :
    (names.length = 24 →
      buildPairs names = .ok ((List.range 23).map
        fun i => ((names[i]?).getD "", (names[i + 1]?).getD "")))
    ∧ (names ≠ [] → names.length ≠ 24 →
      buildPairs names = .error .indexError) := by
  constructor
  · intro h
    unfold buildPairs
    rw [h]
    rw [buildPairsAux_ok names (List.range 24)
      (by intro idx hidx hne
          rw [h]
          have : idx < 24 := List.mem_range.mp hidx
          omega)]
    have hf : (List.range 24).filter (fun i => i ≠ 23) = List.range 23 := by decide
    rw [hf]
  · intro hne h24
    unfold buildPairs
    apply buildPairsAux_err
    refine ⟨names.length - 1, ?_, ?_, ?_⟩
    · apply List.mem_range.mpr
      have : names.length ≠ 0 := fun h0 => hne (List.length_eq_zero.mp h0)
      omega
    · have : names.length ≠ 0 := fun h0 => hne (List.length_eq_zero.mp h0)
      omega
    · apply List.getElem?_eq_none
      have : names.length ≠ 0 := fun h0 => hne (List.length_eq_zero.mp h0)
      omega

/-- Witness for C2 (amended) at a concrete 24-entry list: all pairs are
`("f", "f")` for the 23 processed indices. -/
theorem C2_pairs_skip_23_witness :
    buildPairs (List.replicate 24 "f") = .ok (List.replicate 23 ("f", "f")) := by
  rw [(C2_pairs_skip_23 (List.replicate 24 "f")).1 (by rw [List.length_replicate])]
  rfl

/-- Counterexample to C3: on a parse failure `load_config` does not return
an (undefined) configuration to its caller — the `return config` statement
itself raises `UnboundLocalError` inside `load_config`, after printing the
parse failure. -/
theorem C3_counterexample :
    load_config ℕ (.error "parse failure")
      = (["parse failure"], .error .unboundLocalError)
    ∧ ¬∃ c : ℕ, (load_config ℕ (.error "parse failure")).2 = .ok c := by
  constructor
  · rfl
  · rintro ⟨c, hc⟩
    simp [load_config] at hc

/-- C3 as amended: when the configuration document fails to parse,
`load_config` prints the parse failure and then fails inside `load_config`
itself: the local `config` was never assigned, so `return config` raises
`UnboundLocalError`; the caller never receives (and never gets to access)
an undefined configuration. -/
theorem C3_parse_failure_raises (Cfg : Type) (msg : String) :
    load_config Cfg (.error msg) = ([msg], .error .unboundLocalError) := by
  rfl

/-- C4: any RGB triple matching no entry of the 8-color palette has an
all-zero one-hot row, and `np.argmax` of that row is 0 (first occurrence of
the maximum), so the pixel decodes to class 0 without an error (the
decoder is total). -/
theorem C4_unmatched_rgb_decodes_to_zero (rgb : ℕ × ℕ × ℕ)
    (h : ∀ k, k < 8 → color_label_dict k ≠ some rgb) :
    decode_pixel rgb = 0 := by
  have hrow : rgb_to_onehot_pixel rgb = [0, 0, 0, 0, 0, 0, 0, 0] := by
    have hr : List.range 8 = [0, 1, 2, 3, 4, 5, 6, 7] := rfl
    rw [rgb_to_onehot_pixel, hr]
    simp only [List.map]
    rw [if_neg (h 0 (by norm_num)), if_neg (h 1 (by norm_num)),
      if_neg (h 2 (by norm_num)), if_neg (h 3 (by norm_num)),
      if_neg (h 4 (by norm_num)), if_neg (h 5 (by norm_num)),
      if_neg (h 6 (by norm_num)), if_neg (h 7 (by norm_num))]
  rw [decode_pixel, hrow]
  rfl

/-- Witness for C4: the triple `(5, 5, 5)` is in no palette entry and
decodes to class 0. -/
theorem C4_unmatched_rgb_decodes_to_zero_witness :
    decode_pixel (5, 5, 5) = 0 :=
  C4_unmatched_rgb_decodes_to_zero (5, 5, 5) (by decide)

/-! ## Claim C9: palette round trip -/

theorem decode_encode_class (v : ℕ) (hv : v < 8) :
    (mask2rgb_pixel v).map decode_pixel = some v := by
  interval_cases v <;> rfl

/-- C9: for every class-index mask whose pixels all lie in `0..7`, encoding
a pixel to its palette RGB with `mask2rgb` and decoding it back
(`rgb_to_onehot` followed by `argmax` over the class axis) returns the
original class index at every pixel. -/
theorem C9_palette_roundtrip (m : ℕ → ℕ → ℕ) (h : ∀ r c, m r c < 8) (r c : ℕ) :
    (mask2rgb_pixel (m r c)).map decode_pixel = some (m r c) :=
  decode_encode_class (m r c) (h r c)

/-- Witness for C9: the solid class-3 mask round-trips to class 3 (the
spec's solid-`palette[3]` example). -/
theorem C9_palette_roundtrip_witness :
    (mask2rgb_pixel 3).map decode_pixel = some 3 := by
  have h : ∀ r c : ℕ, (fun _ _ : ℕ => 3) r c < 8 := by
    intro r c
    show (3 : ℕ) < 8
    decide
  exact C9_palette_roundtrip (fun _ _ => 3) h 0 0

/-! ## Claims C5 and C6: inverse-frequency class weights -/

theorem compute_for_INS_weights_get (cm : List ℕ) (c : Counters) (k : ℕ)
    (hk : k < 8) :
    (compute_for_INS_weights cm c).get k = c.get k + cm.count k := by
  interval_cases k <;> rfl

theorem foldl_counters_get (corpus : List (List ℕ)) (c : Counters) (k : ℕ)
    (hk : k < 8) :
    (corpus.foldl (fun c cm => compute_for_INS_weights cm c) c).get k
      = c.get k + totalCount corpus k := by
  induction corpus generalizing c with
  | nil => simp [totalCount]
  | cons cm rest ih =>
      rw [List.foldl_cons, ih (compute_for_INS_weights cm c),
        compute_for_INS_weights_get cm c k hk]
      simp [totalCount]
      omega

theorem accumulate_get (corpus : List (List ℕ)) (k : ℕ) (hk : k < 8) :
    (accumulate corpus).get k = totalCount corpus k := by
  rw [accumulate, foldl_counters_get corpus initCounters k hk]
  have h0 : initCounters.get k = 0 := by interval_cases k <;> rfl
  rw [h0, Nat.zero_add]

theorem countsList_accumulate (corpus : List (List ℕ)) :
    countsList (accumulate corpus)
      = [totalCount corpus 0, totalCount corpus 1, totalCount corpus 2,
         totalCount corpus 3, totalCount corpus 4, totalCount corpus 5,
         totalCount corpus 6, totalCount corpus 7] := by
  have h0 := accumulate_get corpus 0 (by norm_num)
  have h1 := accumulate_get corpus 1 (by norm_num)
  have h2 := accumulate_get corpus 2 (by norm_num)
  have h3 := accumulate_get corpus 3 (by norm_num)
  have h4 := accumulate_get corpus 4 (by norm_num)
  have h5 := accumulate_get corpus 5 (by norm_num)
  have h6 := accumulate_get corpus 6 (by norm_num)
  have h7 := accumulate_get corpus 7 (by norm_num)
  simp only [countsList, List.cons.injEq, and_true]
  exact ⟨h0, h1, h2, h3, h4, h5, h6, h7⟩

theorem weightsOf_ok (l : List ℕ) (h : ∀ n ∈ l, n ≠ 0) :
    weightsOf l = .ok (l.map fun n => 1 / (n : ℚ)) := by
  induction l with
  | nil => rfl
  | cons a as ih =>
      have ha : (a : ℚ) ≠ 0 := Nat.cast_ne_zero.mpr (h a (List.mem_cons_self _ _))
      rw [weightsOf, ih fun n hn => h n (List.mem_cons_of_mem _ hn)]
      simp [pyDiv, ha]
      rfl

theorem weightsOf_err (l : List ℕ) (h : 0 ∈ l) :
    weightsOf l = .error .zeroDivisionError := by
  induction l with
  | nil => simp at h
  | cons a as ih =>
      by_cases ha : a = 0
      · subst ha
        rw [weightsOf]
        simp [pyDiv]
        rfl
      · have hm : 0 ∈ as := by
          rcases List.mem_cons.mp h with h' | h'
          · exact absurd h'.symm ha
          · exact h'
        have ha' : (a : ℚ) ≠ 0 := Nat.cast_ne_zero.mpr ha
        rw [weightsOf, ih hm]
        simp [pyDiv, ha']
        rfl

/-- C5: after training-mode construction over a corpus in which every class
`k` in `0..7` has positive total pixel count, the stored weight table
satisfies `weights[k] = 1 / total_count[k]`, where `total_count[k]` is the
sum over all processed label masks of the number of pixels of class `k`. -/
theorem C5_weights_inverse_counts (corpus : List (List ℕ))
    (h : ∀ k, k < 8 → 0 < totalCount corpus k) (k : ℕ) (hk : k < 8) :
    ∃ ws, train_weights corpus = .ok ws
      ∧ ws[k]? = some (1 / (totalCount corpus k : ℚ)) := by
  have hnz : ∀ n ∈ countsList (accumulate corpus), n ≠ 0 := by
    rw [countsList_accumulate]
    intro n hn
    simp only [List.mem_cons, List.not_mem_nil, or_false] at hn
    rcases hn with rfl | rfl | rfl | rfl | rfl | rfl | rfl | rfl <;>
      exact (h _ (by norm_num)).ne'
  unfold train_weights mkWeights
  rw [weightsOf_ok _ hnz, countsList_accumulate]
  refine ⟨_, rfl, ?_⟩
  interval_cases k <;> simp

/-- Witness for C5 at the spec's synthetic corpus: one 8-pixel mask holding
every class once plus one 4-pixel all-zero mask gives class 0 a total count
of 5 and weight `1/5 = 0.2`. -/
theorem C5_weights_inverse_counts_witness :
    ∃ ws, train_weights [[0, 1, 2, 3, 4, 5, 6, 7], [0, 0, 0, 0]] = .ok ws
      ∧ ws[0]? = some ((1 : ℚ) / 5) := by
  obtain ⟨ws, hok, hget⟩ := C5_weights_inverse_counts
    [[0, 1, 2, 3, 4, 5, 6, 7], [0, 0, 0, 0]] (by decide) 0 (by decide)
  refine ⟨ws, hok, ?_⟩
  rw [hget,
    (by decide : totalCount [[0, 1, 2, 3, 4, 5, 6, 7], [0, 0, 0, 0]] 0 = 5)]
  norm_num

/-- C6: if some class `k` in `0..7` has zero accumulated pixels across the
whole training corpus, computing the inverse-frequency weights at the end
of training-mode construction fails with `ZeroDivisionError`; the failure
is fatal and unrecovered (the error propagates out of construction). -/
theorem C6_zero_class_count_divzero (corpus : List (List ℕ)) (k : ℕ)
    (hk : k < 8) (hzero : totalCount corpus k = 0) :
    train_weights corpus = .error .zeroDivisionError := by
  unfold train_weights mkWeights
  apply weightsOf_err
  rw [countsList_accumulate]
  interval_cases k <;> simp [List.mem_cons] <;> omega

/-- Witness for C6: a corpus consisting of one all-zero one-pixel mask has
no class-1 pixels, and training-mode weight computation fails with the
division-by-zero error. -/
theorem C6_zero_class_count_divzero_witness :
    train_weights [[0]] = .error .zeroDivisionError :=
  C6_zero_class_count_divzero [[0]] 1 (by decide) (by decide)
